import Mathlib

/-!
# Verification of `helpers/update-firestorm.py`

A shallow embedding of the Firestorm Scoop-bucket update script.  The script
downloads an installer for a given version, computes its SHA-256 checksum,
and rewrites three fields of the JSON manifest `bucket/firestorm-beta.json`
(`version`, `architecture.64bit.url`, `architecture.64bit.hash`), cleaning up
the downloaded temp file afterwards.

Python values are modelled as follows: JSON documents as an inductive `Json`
with objects as ordered association lists (Python dicts preserve insertion
order and `json.load` never produces duplicate keys); bytes as `List Nat`;
the filesystem and the single outgoing HTTP request as an explicit state
record threaded through the functions; `sys.exit` as an `Except` error value
carrying the exit code and the diagnostic category that was printed.
-/

set_option autoImplicit false

namespace Firestorm

/-- JSON values as produced by the Python `json.load`.  Objects are ordered
association lists of string keys; `json.load` never yields duplicate keys. -/
inductive Json where
  | null : Json
  | bool : Bool → Json
  | num : Int → Json
  | str : String → Json
  | arr : List Json → Json
  | obj : List (String × Json) → Json

/-- Python dict lookup `d[k]`: the value at the first occurrence of key `k`. -/
def objGet : List (String × Json) → String → Option Json
  | [], _ => none
  | (k', v') :: rest, k => if k' = k then some v' else objGet rest k

/-- Python dict assignment `d[k] = v`: replace the value at an existing key in
place, otherwise append the new binding at the end. -/
def objSet : List (String × Json) → String → Json → List (String × Json)
  | [], k, v => [(k, v)]
  | (k', v') :: rest, k, v =>
      if k' = k then (k', v) :: rest else (k', v') :: objSet rest k v

/-- Key lookup on a JSON value: `j[k]` when `j` is an object, failure
(Python `TypeError`) otherwise. -/
def Json.getKey : Json → String → Option Json
  | .obj fields, k => objGet fields k
  | _, _ => none

/-- Lookup along a path of keys. -/
def Json.getPath (j : Json) : List String → Option Json
  | [] => some j
  | k :: ks => (j.getKey k).bind fun v => v.getPath ks

/-! ## String helpers (Python `str` methods used by the script) -/

/-- Python `s.replace(a, b)` for a single-character pattern: map the replacement
over the characters. -/
def pyReplaceChar (a b : Char) (s : String) : String :=
  ⟨s.data.map fun c => if c = a then b else c⟩

/-- Python `s.upper()` restricted to the characters the script produces (ASCII hex
digits): uppercase every character. -/
def pyUpper (s : String) : String :=
  ⟨s.data.map Char.toUpper⟩

/-- Line 134: `hyphen_version = dotted_version.replace(".", "-")`. -/
def hyphenVersion (dotted : String) : String :=
  pyReplaceChar '.' '-' dotted

/-- Computation of `pathlib.Path(url).name`: the part of the URL after the last `/`. -/
def pathName (url : String) : String :=
  (url.splitOn "/").getLastD url

/-! ## URL construction

`URL_TEMPLATE` (line 11) is
`"https://downloads.firestormviewer.org/preview/windows/Phoenix-Firestorm-Betax64_AVX2-{}_Setup.exe"`;
`URL_TEMPLATE.format(hyphen_version)` substitutes the version for the single
`\x7b\x7d` placeholder, so we embed the template as the text around the
placeholder. -/

/-- Text of `URL_TEMPLATE` before the placeholder. -/
def urlHead : String :=
  "https://downloads.firestormviewer.org/preview/windows/Phoenix-Firestorm-Betax64_AVX2-"

/-- Text of `URL_TEMPLATE` after the placeholder. -/
def urlTail : String := "_Setup.exe"

/-- Value of `URL_TEMPLATE.format(hyphen_version)` (lines 53 and 101). -/
def urlFor (hyphen_version : String) : String :=
  urlHead ++ hyphen_version ++ urlTail

/-- Installer file name `dest / Path(url).name` (line 54), keyed by file name since the
destination directory is fixed. -/
def installerName (hyphen_version : String) : String :=
  pathName (urlFor hyphen_version)

/-! ## SHA-256

Modelled from the spec: the script delegates the digest itself to the
standard library (`hashlib.sha256`), which is not part of this repository;
the spec calls it "a cryptographic digest accumulator" producing "a
256-bit digest".  We embed `hashlib.sha256` by its published definition
(FIPS 180-4), over bytes as `List Nat` (each `< 256`) and 32-bit words as
`Nat` reduced modulo `2 ^ 32`. -/

/-- Constant `2 ^ 32`, the modulus for 32-bit words. -/
def M32 : Nat := 4294967296

/-- Addition modulo `2 ^ 32`. -/
def add32 (x y : Nat) : Nat := (x + y) % M32

/-- Right rotation of a 32-bit word. -/
def rotr (n x : Nat) : Nat := ((x >>> n) ||| (x <<< (32 - n))) % M32

/-- The SHA-256 `Ch` function (`¬x` taken as xor with the 32-bit mask). -/
def ch (x y z : Nat) : Nat := (x &&& y) ^^^ ((x ^^^ 4294967295) &&& z)

/-- The SHA-256 `Maj` function. -/
def maj (x y z : Nat) : Nat := (x &&& y) ^^^ (x &&& z) ^^^ (y &&& z)

/-- The SHA-256 `Σ₀` function. -/
def bsig0 (x : Nat) : Nat := rotr 2 x ^^^ rotr 13 x ^^^ rotr 22 x

/-- The SHA-256 `Σ₁` function. -/
def bsig1 (x : Nat) : Nat := rotr 6 x ^^^ rotr 11 x ^^^ rotr 25 x

/-- The SHA-256 `σ₀` function. -/
def ssig0 (x : Nat) : Nat := rotr 7 x ^^^ rotr 18 x ^^^ (x >>> 3)

/-- The SHA-256 `σ₁` function. -/
def ssig1 (x : Nat) : Nat := rotr 17 x ^^^ rotr 19 x ^^^ (x >>> 10)

/-- The 64 SHA-256 round constants (FIPS 180-4 section 4.2.2), written in
decimal. -/
def K256 : List Nat :=
  [1116352408, 1899447441, 3049323471, 3921009573, 961987163, 1508970993,
   2453635748, 2870763221, 3624381080, 310598401, 607225278, 1426881987,
   1925078388, 2162078206, 2614888103, 3248222580, 3835390401, 4022224774,
   264347078, 604807628, 770255983, 1249150122, 1555081692, 1996064986,
   2554220882, 2821834349, 2952996808, 3210313671, 3336571891, 3584528711,
   113926993, 338241895, 666307205, 773529912, 1294757372, 1396182291,
   1695183700, 1986661051, 2177026350, 2456956037, 2730485921, 2820302411,
   3259730800, 3345764771, 3516065817, 3600352804, 4094571909, 275423344,
   430227734, 506948616, 659060556, 883997877, 958139571, 1322822218,
   1537002063, 1747873779, 1955562222, 2024104815, 2227730452, 2361852424,
   2428436474, 2756734187, 3204031479, 3329325298]

/-- The eight 32-bit working variables of the SHA-256 state. -/
structure Hash8 where
  a : Nat
  b : Nat
  c : Nat
  d : Nat
  e : Nat
  f : Nat
  g : Nat
  h : Nat

/-- The SHA-256 initial hash value (FIPS 180-4 section 5.3.3), written in
decimal. -/
def H0 : Hash8 :=
  ⟨1779033703, 3144134277, 1013904242, 2773480762,
   1359893119, 2600822924, 528734635, 1541459225⟩

/-- The 64-word message schedule of one 16-word block. -/
def schedule (block : List Nat) : List Nat :=
  (List.range 64).foldl
    (fun ws t =>
      if t < 16 then ws ++ [block.getD t 0]
      else ws ++ [add32 (add32 (ssig1 (ws.getD (t - 2) 0)) (ws.getD (t - 7) 0))
                        (add32 (ssig0 (ws.getD (t - 15) 0)) (ws.getD (t - 16) 0))])
    []

/-- One SHA-256 round, fed the round constant paired with the schedule word. -/
def round256 (st : Hash8) (kw : Nat × Nat) : Hash8 :=
  let t1 := add32 st.h (add32 (bsig1 st.e) (add32 (ch st.e st.f st.g) (add32 kw.1 kw.2)))
  let t2 := add32 (bsig0 st.a) (maj st.a st.b st.c)
  ⟨add32 t1 t2, st.a, st.b, st.c, add32 st.d t1, st.e, st.f, st.g⟩

/-- The SHA-256 compression function on one 16-word block. -/
def compress (st : Hash8) (block : List Nat) : Hash8 :=
  let w := schedule block
  let r := (K256.zip w).foldl round256 st
  ⟨add32 st.a r.a, add32 st.b r.b, add32 st.c r.c, add32 st.d r.d,
   add32 st.e r.e, add32 st.f r.f, add32 st.g r.g, add32 st.h r.h⟩

/-- Split a list into chunks of `n` elements (the last one possibly
shorter); also models `f.read(8192)` returning successive chunks. -/
def chunksOf {α : Type} (n : Nat) : List α → List (List α)
  | [] => []
  | x :: xs =>
    if n = 0 then []
    else (x :: xs).take n :: chunksOf n ((x :: xs).drop n)
termination_by l => l.length
decreasing_by
  rename_i h
  simp only [List.length_drop, List.length_cons]
  omega

/-- The eight-byte big-endian encoding of the message bit length. -/
def lengthBytes (n : Nat) : List Nat :=
  [n >>> 56 % 256, n >>> 48 % 256, n >>> 40 % 256, n >>> 32 % 256,
   n >>> 24 % 256, n >>> 16 % 256, n >>> 8 % 256, n % 256]

/-- SHA-256 padding: a `0x80` byte, zeros to 56 mod 64, then the bit length. -/
def pad (msg : List Nat) : List Nat :=
  msg ++ [0x80] ++ List.replicate ((64 - (msg.length + 9) % 64) % 64) 0
      ++ lengthBytes (msg.length * 8)

/-- Four big-endian bytes as one 32-bit word. -/
def wordOfBytes (bs : List Nat) : Nat :=
  bs.foldl (fun acc b => acc * 256 + b) 0

/-- The SHA-256 digest state of a byte sequence. -/
def sha256 (msg : List Nat) : Hash8 :=
  ((chunksOf 64 (pad msg)).map fun blk => (chunksOf 4 blk).map wordOfBytes).foldl
    compress H0

/-- The sixteen lowercase hexadecimal digit characters. -/
def hexDigits : List Char := "0123456789abcdef".data

/-- The lowercase hexadecimal digit of a nibble. -/
def nibbleChar (n : Nat) : Char := hexDigits.getD (n % 16) '0'

/-- The eight lowercase hexadecimal digits of a 32-bit word. -/
def wordHex (w : Nat) : List Char :=
  [nibbleChar (w >>> 28), nibbleChar (w >>> 24), nibbleChar (w >>> 20),
   nibbleChar (w >>> 16), nibbleChar (w >>> 12), nibbleChar (w >>> 8),
   nibbleChar (w >>> 4), nibbleChar w]

/-- Method `hexdigest()` of `hashlib`: the digest as 64 lowercase hexadecimal
characters. -/
def hexdigest (st : Hash8) : String :=
  ⟨([st.a, st.b, st.c, st.d, st.e, st.f, st.g, st.h].map wordHex).flatten⟩

/-- The semantics of a `hashlib.sha256()` accumulator: `update` appends the
chunk, and the digest is taken of the concatenation of all fed chunks. -/
def shaUpdate (ctx : List Nat) (chunk : List Nat) : List Nat := ctx ++ chunk

/-- Function `calculate_sha256` (lines 80-87): feed the file to the accumulator in
chunks of 8192 bytes and return `hash_sha256.hexdigest().upper()`.  The file
content is passed as its byte sequence. -/
def calculate_sha256 (fileBytes : List Nat) : String :=
  pyUpper (hexdigest (sha256 ((chunksOf 8192 fileBytes).foldl shaUpdate [])))

/-- Modelled from the spec: the "independently computed reference digest of
the same bytes" — the SHA-256 digest of the whole byte sequence taken in one
step, rendered as the 64-character uppercase hexadecimal string of the spec. -/
def referenceDigest (fileBytes : List Nat) : String :=
  pyUpper (hexdigest (sha256 fileBytes))

/-! ## The process model

The script touches one manifest file (at the fixed path
`bucket/firestorm-beta.json`), files in its temp directory (keyed by file
name), and issues HTTP GET requests.  `FS` records all three; the network is
an oracle mapping a URL to the outcome of
`requests.get(url); response.raise_for_status()`. -/

/-- Outcome of `requests.get(url, stream=True)` followed by
`response.raise_for_status()` and, when the status check passed, the
`iter_content` stream: the whole body on success; `interrupted delivered`
when the status check passed but the stream broke mid-transfer after
delivering the prefix `delivered` of the body (the exception is raised
later, inside the chunk loop); `requests.HTTPError` with a status code for
an HTTP error status; or a transport-level `requests.RequestException`
raised by the GET itself (connection refused, timeout, DNS failure). -/
inductive HttpResult where
  | success : List Nat → HttpResult
  | interrupted : List Nat → HttpResult
  | httpError : Nat → HttpResult
  | netError : HttpResult

/-- The diagnostic category printed on a terminating path. -/
inductive MsgKind where
  | versionNotFound : MsgKind
  | httpErrorMsg : MsgKind
  | networkError : MsgKind
  | manifestNotFound : MsgKind
  | unhandledError : MsgKind
deriving DecidableEq

/-- A `sys.exit` (or uncaught exception): the process exit code and the
diagnostic that was printed. -/
structure ExitInfo where
  code : Nat
  msg : MsgKind
deriving DecidableEq

/-- The observable state: the parsed manifest file (`none` when the file
does not exist), the files in the temp directory with their contents, and
the trace of URLs requested over HTTP. -/
structure FS where
  manifest : Option Json
  tempFiles : List (String × List Nat)
  requests : List String

/-- Look up the bytes of a temp file by name (`open(filepath, "rb")`). -/
def readFile (fs : FS) (name : String) : Option (List Nat) :=
  match fs.tempFiles.find? (fun kv => kv.1 = name) with
  | some kv => some kv.2
  | none => none

/-- Write `open(filename, "wb")` followed by the chunk loop: create or
overwrite the named temp file with the body. -/
def writeFile : List (String × List Nat) → String → List Nat → List (String × List Nat)
  | [], name, body => [(name, body)]
  | kv :: rest, name, body =>
      if kv.1 = name then (name, body) :: rest else kv :: writeFile rest name body

/-- Function `download_installer` (lines 51-77): build the URL from the template,
issue one GET; on HTTP status 404 exit 1 with the version-not-found message,
on any other HTTP error status exit 1 with the generic HTTP-error message,
on a transport error exit 1 with the network-error message; on success write
the body chunkwise to `dest / Path(url).name` and return that path.  When the
status check passed but the stream then breaks inside the chunk loop (lines
72-75), the bytes delivered so far have already been written to the
destination file and the exception propagates uncaught — the `except`
clauses wrap only the GET and the status check — so the function neither
returns nor prints one of its three messages, and the partial file stays. -/
def download_installer (hyphen_version : String) (net : String → HttpResult)
    (fs : FS) : Except ExitInfo String × FS :=
  let url := urlFor hyphen_version
  let fs1 : FS := { fs with requests := fs.requests ++ [url] }
  match net url with
  | .netError => (.error ⟨1, .networkError⟩, fs1)
  | .httpError status =>
      if status = 404 then (.error ⟨1, .versionNotFound⟩, fs1)
      else (.error ⟨1, .httpErrorMsg⟩, fs1)
  | .interrupted delivered =>
      (.error ⟨1, .unhandledError⟩,
       { fs1 with
          tempFiles := writeFile fs1.tempFiles (installerName hyphen_version) delivered })
  | .success body =>
      (.ok (installerName hyphen_version),
       { fs1 with tempFiles := writeFile fs1.tempFiles (installerName hyphen_version) body })

/-- The in-memory mutation of `update_manifest` (lines 97-102):
`manifest["version"] = dotted_version`, then
`manifest["architecture"]["64bit"]["url"] = URL_TEMPLATE.format(hyphen_version)`
and `manifest["architecture"]["64bit"]["hash"]` to the checksum with the `sha256:` tag.
`none` is the uncaught `KeyError`/`TypeError` when the document is not an
object or lacks the nested `architecture.64bit` object; the file is then
never written, since writing happens only after both assignments. -/
def updateManifestDoc (manifest : Json) (dotted_version hyphen_version checksum : String) :
    Option Json :=
  match manifest with
  | .obj fields =>
      let fields1 := objSet fields "version" (.str dotted_version)
      match objGet fields1 "architecture" with
      | some (.obj arch) =>
          match objGet arch "64bit" with
          | some (.obj b64) =>
              let b64' := objSet (objSet b64 "url" (.str (urlFor hyphen_version)))
                            "hash" (.str ("sha256:" ++ checksum))
              some (.obj (objSet fields1 "architecture" (.obj (objSet arch "64bit" (.obj b64')))))
          | _ => none
      | _ => none
  | _ => none

/-- Function `update_manifest` (lines 90-106): read and parse the manifest file,
apply the three field assignments in memory, and serialize the result back
to the same path (`json.dump` with `indent=2, ensure_ascii=False`; the
document structure, not its concrete rendering, is modelled).  `none` is an
uncaught exception: the file was missing or the assignments failed. -/
def update_manifest (fs : FS) (dotted_version hyphen_version checksum : String) :
    Option FS :=
  match fs.manifest with
  | none => none
  | some manifest =>
      (updateManifestDoc manifest dotted_version hyphen_version checksum).map
        fun manifest' => { fs with manifest := some manifest' }

/-- Function `cleanup_temp_files` (lines 109-115): for each tracked path, delete the
temp file if it still exists. -/
def cleanup_temp_files (tracked : List String) (fs : FS) : FS :=
  { fs with
    tempFiles := tracked.foldl (fun tf p => tf.filter (fun kv => kv.1 ≠ p)) fs.tempFiles }

/-- The `finally` block (lines 161-164): run the cleanup on the tracked
paths unless `--keep-temp` was passed. -/
def finallyCleanup (keepTemp : Bool) (tracked : List String) (fs : FS) : FS :=
  if keepTemp then fs else cleanup_temp_files tracked fs

/-- Function `main` (lines 118-164): after the bootstrap and argument parsing: derive
the hyphenated version, check the manifest exists, then download, hash and
update inside `try`, with the cleanup in `finally` on every path —
`sys.exit` inside `download_installer` raises `SystemExit`, which still runs
the `finally` block (with an empty tracked list, since `installer_path` was
never assigned); an uncaught mid-stream exception from the chunk loop
reaches the `finally` block the same way, again with an empty tracked list,
so a partial destination file is never deleted; and an uncaught `KeyError`
from `update_manifest` likewise runs it before the interpreter exits with
code 1.  Returns the exit code, the diagnostic printed (if any), and the
final state. -/
def main (version : String) (keepTemp : Bool) (net : String → HttpResult)
    (fs : FS) : (Nat × Option MsgKind) × FS :=
  let hyphen_version := hyphenVersion version
  match fs.manifest with
  | none => ((1, some .manifestNotFound), fs)
  | some _ =>
    match download_installer hyphen_version net fs with
    | (.error e, fs1) => ((e.code, some e.msg), finallyCleanup keepTemp [] fs1)
    | (.ok installer_path, fs1) =>
      match readFile fs1 installer_path with
      | none =>
          ((1, some .unhandledError), finallyCleanup keepTemp [installer_path] fs1)
      | some body =>
        let checksum := calculate_sha256 body
        match update_manifest fs1 version hyphen_version checksum with
        | none =>
            ((1, some .unhandledError), finallyCleanup keepTemp [installer_path] fs1)
        | some fs2 =>
            ((0, none), finallyCleanup keepTemp [installer_path] fs2)

/-! ## Helper lemmas -/

/-- Reading back a key after a Python dict assignment. -/
theorem objGet_objSet (l : List (String × Json)) (k : String) (v : Json) (k' : String) :
    objGet (objSet l k v) k' = if k' = k then some v else objGet l k' := by
  induction l with
  | nil =>
      simp only [objSet, objGet]
      by_cases hk : k' = k
      · simp [hk]
      · rw [if_neg (fun hh => hk hh.symm), if_neg hk]
  | cons kv rest ih =>
      obtain ⟨k₀, v₀⟩ := kv
      simp only [objSet]
      by_cases h₀ : k₀ = k
      · subst h₀
        simp only [if_pos rfl, objGet]
        by_cases hk : k' = k₀
        · simp [hk]
        · rw [if_neg (fun hh => hk hh.symm), if_neg hk, if_neg (fun hh => hk hh.symm)]
      · rw [if_neg h₀]
        simp only [objGet, ih]
        by_cases hk : k' = k
        · have h₀' : k₀ ≠ k' := fun hh => h₀ (hh.trans hk)
          simp [hk, h₀', h₀]
        · by_cases h₀' : k₀ = k'
          · simp [hk, h₀']
          · simp [hk, h₀']

/-- Folding list concatenation accumulates the flattened list. -/
theorem foldl_shaUpdate (cs : List (List Nat)) (a : List Nat) :
    cs.foldl shaUpdate a = a ++ cs.flatten := by
  induction cs generalizing a with
  | nil => simp
  | cons c cs ih => simp [shaUpdate, ih]

/-- Flattening the chunks of a list recovers the list. -/
theorem chunksOf_join {α : Type} (n : Nat) (hn : n ≠ 0) (l : List α) :
    (chunksOf n l).flatten = l := by
  have H : ∀ (len : Nat) (l : List α), l.length = len → (chunksOf n l).flatten = l := by
    intro len
    induction len using Nat.strong_induction_on with
    | _ len ih =>
      intro l hl
      cases l with
      | nil => simp [chunksOf]
      | cons x xs =>
        rw [chunksOf, if_neg hn, List.flatten_cons,
            ih ((x :: xs).drop n).length
              (by subst hl; simp only [List.length_drop, List.length_cons]; omega)
              ((x :: xs).drop n) rfl,
            List.take_append_drop]
  exact H l.length l rfl

/-- Reading the file just written returns the bytes just written. -/
theorem readFile_writeFile (tf : List (String × List Nat)) (name : String)
    (body : List Nat) (fs : FS) (h : fs.tempFiles = writeFile tf name body) :
    readFile fs name = some body := by
  rw [readFile, h]
  clear h
  induction tf with
  | nil => simp [writeFile, List.find?]
  | cons kv rest ih =>
      by_cases hk : kv.1 = name
      · simp [writeFile, hk, List.find?]
      · simpa [writeFile, hk, List.find?_cons_of_neg, hk] using ih

/-- Deleting the file just written restores the original temp directory,
provided no file of that name pre-existed. -/
theorem filter_writeFile (tf : List (String × List Nat)) (name : String)
    (body : List Nat) (h : name ∉ tf.map Prod.fst) :
    (writeFile tf name body).filter (fun kv => kv.1 ≠ name) = tf := by
  induction tf with
  | nil => simp [writeFile]
  | cons kv rest ih =>
      simp only [List.map_cons, List.mem_cons] at h
      push_neg at h
      have hk : kv.1 ≠ name := fun hkv => h.1 hkv.symm
      simp only [writeFile, if_neg hk, List.filter_cons]
      rw [if_pos (by simpa using hk), ih h.2]

/-- A filter that removes nothing. -/
theorem filter_of_not_mem (tf : List (String × List Nat)) (name : String)
    (h : name ∉ tf.map Prod.fst) :
    tf.filter (fun kv => kv.1 ≠ name) = tf := by
  induction tf with
  | nil => simp
  | cons kv rest ih =>
      simp only [List.map_cons, List.mem_cons] at h
      push_neg at h
      have hk : kv.1 ≠ name := fun hkv => h.1 hkv.symm
      simp only [List.filter_cons]
      rw [if_pos (by simpa using hk), ih h.2]

/-- Cleanup of a single tracked path is one filter. -/
theorem cleanup_single (name : String) (fs : FS) :
    cleanup_temp_files [name] fs
      = { fs with tempFiles := fs.tempFiles.filter (fun kv => kv.1 ≠ name) } := rfl

/-- Cleanup with nothing tracked changes nothing. -/
theorem cleanup_nil (fs : FS) : cleanup_temp_files [] fs = fs := rfl

/-- The `finally` block with nothing tracked changes nothing, whether or not
`--keep-temp` was passed. -/
theorem finallyCleanup_nil (keepTemp : Bool) (fs : FS) :
    finallyCleanup keepTemp [] fs = fs := by
  cases keepTemp <;> rfl

/-- The document produced by a successful run of the three assignments of
`update_manifest`, written out as the three `objSet`s. -/
def updatedDoc (fields arch b64 : List (String × Json)) (d hy c : String) : Json :=
  .obj (objSet (objSet fields "version" (.str d)) "architecture"
    (.obj (objSet arch "64bit"
      (.obj (objSet (objSet b64 "url" (.str (urlFor hy)))
        "hash" (.str ("sha256:" ++ c)))))))

/-- The successful shape of the in-memory manifest mutation: with the nested
`architecture.64bit` object present, the three assignments go through and
produce exactly the three `objSet`s. -/
theorem updateManifestDoc_eq (fields arch b64 : List (String × Json))
    (d hy c : String)
    (ha : objGet fields "architecture" = some (.obj arch))
    (hb : objGet arch "64bit" = some (.obj b64)) :
    updateManifestDoc (.obj fields) d hy c
      = some (updatedDoc fields arch b64 d hy c) := by
  have ha' : objGet (objSet fields "version" (.str d)) "architecture"
      = some (.obj arch) := by
    rw [objGet_objSet]
    simp [ha]
  simp [updateManifestDoc, updatedDoc, ha', hb]

/-- Inversion of a successful in-memory manifest mutation: the nested
`architecture.64bit` object was present, and the result is the three
`objSet`s. -/
theorem updateManifestDoc_some (fields : List (String × Json)) (d hy c : String)
    (m' : Json) (hu : updateManifestDoc (.obj fields) d hy c = some m') :
    ∃ arch b64,
      objGet fields "architecture" = some (.obj arch) ∧
      objGet arch "64bit" = some (.obj b64) ∧
      m' = updatedDoc fields arch b64 d hy c := by
  have h1 : objGet (objSet fields "version" (.str d)) "architecture"
      = objGet fields "architecture" := by
    rw [objGet_objSet]; simp
  rcases hao : objGet fields "architecture" with _ | (_ | b | n | s | xs | arch) <;>
    simp [updateManifestDoc, h1, hao] at hu
  rcases hb64 : objGet arch "64bit" with _ | (_ | b2 | n2 | s2 | xs2 | b64) <;>
    simp [hb64] at hu
  exact ⟨arch, b64, rfl, hb64, by rw [← hu]; rfl⟩

/-- Replacing `.` by `-` and then `-` by `.` fixes every character that is
neither `.` nor `-`. -/
theorem map_dot_dash_cancel (l : List Char) (hl : '-' ∉ l) :
    (l.map fun c => if c = '.' then '-' else c).map
        (fun c => if c = '-' then '.' else c) = l := by
  induction l with
  | nil => rfl
  | cons c cs ih =>
      simp only [List.mem_cons, not_or] at hl
      simp only [List.map_cons]
      rw [ih hl.2]
      congr 1
      by_cases hc : c = '.'
      · simp [hc]
      · rw [if_neg hc, if_neg (fun hh => hl.1 hh.symm)]

/-! ## Sample data used by the witnesses -/

/-- A sample `architecture.64bit` object with an unrelated extra field. -/
def sampleB64 : List (String × Json) :=
  [("url", .str "oldurl"), ("hash", .str "sha256:OLD"), ("extract_dir", .str "dir")]

/-- A sample `architecture` object with an unrelated `32bit` sibling. -/
def sampleArch : List (String × Json) :=
  [("64bit", .obj sampleB64), ("32bit", .str "z")]

/-- A sample manifest document with unrelated top-level fields. -/
def sampleFields : List (String × Json) :=
  [("version", .str "7.2.0.1"), ("homepage", .str "https://example.org"),
   ("architecture", .obj sampleArch), ("other", .bool true)]

/-- The sample manifest after the update with version `7.2.0.2` and
checksum `AB`. -/
def sampleUpdated : Json :=
  .obj [("version", .str "7.2.0.2"), ("homepage", .str "https://example.org"),
        ("architecture", .obj
          [("64bit", .obj
            [("url", .str (urlFor "7-2-0-2")), ("hash", .str "sha256:AB"),
             ("extract_dir", .str "dir")]),
           ("32bit", .str "z")]),
        ("other", .bool true)]

/-- A sample starting state whose manifest file exists. -/
def sampleFS : FS := ⟨some (.obj sampleFields), [], []⟩

/-! ## The claims -/

/-- Claim C1, frame effect of the manifest update: when the update goes
through, every top-level field other than `version` and `architecture`,
every `architecture` field other than `64bit`, and every
`architecture.64bit` field other than `url` and `hash` keeps its value, so
only the three targeted fields are overwritten and the rest of the document
structure survives unchanged. -/
theorem update_manifest_frame (fields : List (String × Json)) (d hy c : String)
    (m' : Json) (hu : updateManifestDoc (.obj fields) d hy c = some m') :
    (∀ k, k ≠ "version" → k ≠ "architecture" →
        m'.getKey k = (Json.obj fields).getKey k) ∧
    (∀ k, k ≠ "64bit" →
        m'.getPath ["architecture", k]
          = (Json.obj fields).getPath ["architecture", k]) ∧
    (∀ k, k ≠ "url" → k ≠ "hash" →
        m'.getPath ["architecture", "64bit", k]
          = (Json.obj fields).getPath ["architecture", "64bit", k]) := by
  obtain ⟨arch, b64, harch0, hb64, rfl⟩ := updateManifestDoc_some fields d hy c m' hu
  refine ⟨fun k hk1 hk2 => ?_, fun k hk => ?_, fun k hk1 hk2 => ?_⟩
  · simp only [updatedDoc, Json.getKey]
    rw [objGet_objSet, if_neg hk2, objGet_objSet, if_neg hk1]
  · simp only [updatedDoc, Json.getPath, Json.getKey, harch0, Option.bind]
    rw [objGet_objSet, if_pos rfl]
    simp only [Option.bind, Json.getKey]
    rw [objGet_objSet, if_neg hk]
  · simp only [updatedDoc, Json.getPath, Json.getKey, harch0, hb64, Option.bind]
    rw [objGet_objSet, if_pos rfl]
    simp only [Option.bind, Json.getKey]
    rw [objGet_objSet, if_pos rfl]
    simp only [hb64, Option.bind, Json.getKey]
    rw [objGet_objSet, if_neg hk2, objGet_objSet, if_neg hk1]

/-- Witness for `update_manifest_frame` on the sample manifest: the
unrelated fields `other`, `32bit` and `extract_dir` keep their values. -/
theorem update_manifest_frame_witness :
    sampleUpdated.getKey "other" = (Json.obj sampleFields).getKey "other" ∧
    sampleUpdated.getPath ["architecture", "32bit"]
      = (Json.obj sampleFields).getPath ["architecture", "32bit"] ∧
    sampleUpdated.getPath ["architecture", "64bit", "extract_dir"]
      = (Json.obj sampleFields).getPath ["architecture", "64bit", "extract_dir"] := by
  have hfr := update_manifest_frame sampleFields "7.2.0.2" "7-2-0-2" "AB"
    sampleUpdated (by rfl)
  exact ⟨hfr.1 "other" (by decide) (by decide),
         hfr.2.1 "32bit" (by decide),
         hfr.2.2 "extract_dir" (by decide) (by decide)⟩

/-- Claim C2, functional correctness of the manifest update: on a manifest
file that exists and contains an `architecture.64bit` object, the update
succeeds and the resulting document, stored back at the same path, has
`version` equal to the dotted string, `architecture.64bit.url` equal to the
URL template with the hyphenated string substituted in, and
`architecture.64bit.hash` equal to `"sha256:"` followed by the checksum;
nothing else of the state changes. -/
theorem update_manifest_correct (fs : FS) (fields arch b64 : List (String × Json))
    (d hy c : String)
    (hm : fs.manifest = some (.obj fields))
    (ha : objGet fields "architecture" = some (.obj arch))
    (hb : objGet arch "64bit" = some (.obj b64)) :
    ∃ fs', update_manifest fs d hy c = some fs' ∧
      ∃ m', fs'.manifest = some m' ∧
        m'.getKey "version" = some (.str d) ∧
        m'.getPath ["architecture", "64bit", "url"] = some (.str (urlFor hy)) ∧
        m'.getPath ["architecture", "64bit", "hash"]
          = some (.str ("sha256:" ++ c)) ∧
        fs'.tempFiles = fs.tempFiles ∧ fs'.requests = fs.requests := by
  have hdoc := updateManifestDoc_eq fields arch b64 d hy c ha hb
  have hfile : update_manifest fs d hy c
      = some { fs with manifest := some (updatedDoc fields arch b64 d hy c) } := by
    simp [update_manifest, hm, hdoc]
  refine ⟨_, hfile, updatedDoc fields arch b64 d hy c, rfl, ?_, ?_, ?_, rfl, rfl⟩
  · simp only [updatedDoc, Json.getKey]
    rw [objGet_objSet, if_neg (by decide), objGet_objSet, if_pos rfl]
  · simp only [updatedDoc, Json.getPath, Json.getKey, Option.bind]
    rw [objGet_objSet, if_pos rfl]
    simp only [Option.bind, Json.getKey]
    rw [objGet_objSet, if_pos rfl]
    simp only [Option.bind, Json.getKey]
    rw [objGet_objSet, if_neg (by decide), objGet_objSet, if_pos rfl]
  · simp only [updatedDoc, Json.getPath, Json.getKey, Option.bind]
    rw [objGet_objSet, if_pos rfl]
    simp only [Option.bind, Json.getKey]
    rw [objGet_objSet, if_pos rfl]
    simp only [Option.bind, Json.getKey]
    rw [objGet_objSet, if_pos rfl]

/-- Witness for `update_manifest_correct` on the sample state. -/
theorem update_manifest_correct_witness :
    ∃ fs', update_manifest sampleFS "7.2.0.2" "7-2-0-2" "AB" = some fs' ∧
      ∃ m', fs'.manifest = some m' ∧
        m'.getKey "version" = some (.str "7.2.0.2") ∧
        m'.getPath ["architecture", "64bit", "url"]
          = some (.str (urlFor "7-2-0-2")) ∧
        m'.getPath ["architecture", "64bit", "hash"]
          = some (.str ("sha256:" ++ "AB")) ∧
        fs'.tempFiles = sampleFS.tempFiles ∧ fs'.requests = sampleFS.requests :=
  update_manifest_correct sampleFS sampleFields sampleArch sampleB64
    "7.2.0.2" "7-2-0-2" "AB" rfl rfl rfl

/-- Claim C8, the hyphenation transform: the hyphenated form is the dotted string
with every `.` replaced by `-`, and when the dotted string contains no `-`,
replacing every `-` back by `.` recovers it exactly. -/
theorem hyphenation_transform (dotted : String) :
    (hyphenVersion dotted).data
      = dotted.data.map (fun c => if c = '.' then '-' else c) ∧
    ('-' ∉ dotted.data → pyReplaceChar '-' '.' (hyphenVersion dotted) = dotted) := by
  constructor
  · rfl
  · intro hnd
    obtain ⟨l⟩ := dotted
    show String.mk ((l.map _).map _) = String.mk l
    exact congrArg String.mk (map_dot_dash_cancel l hnd)

/-- Witness for `hyphenation_transform` on the version from the usage
string of the script. -/
theorem hyphenation_transform_witness :
    '-' ∉ "7.2.0.78879".data ∧
      pyReplaceChar '-' '.' (hyphenVersion "7.2.0.78879") = "7.2.0.78879" :=
  ⟨by decide, (hyphenation_transform "7.2.0.78879").2 (by decide)⟩

/-- The sixteen uppercase hexadecimal digit characters. -/
def upperHexChars : List Char := "0123456789ABCDEF".data

/-- Uppercasing any nibble digit lands in the uppercase hexadecimal
alphabet. -/
theorem nibbleChar_toUpper_mem (n : Nat) :
    Char.toUpper (nibbleChar n) ∈ upperHexChars := by
  have hb : ∀ k, k < 16 → Char.toUpper (hexDigits.getD k '0') ∈ upperHexChars := by
    decide
  exact hb (n % 16) (Nat.mod_lt _ (by norm_num))

/-- Every character of a `hexdigest` is some nibble digit. -/
theorem mem_hexdigest_data (st : Hash8) (c : Char)
    (hc : c ∈ (hexdigest st).data) : ∃ n, c = nibbleChar n := by
  have hc' : c ∈ (([st.a, st.b, st.c, st.d, st.e, st.f, st.g, st.h].map wordHex).flatten) := hc
  rw [List.mem_flatten] at hc'
  obtain ⟨l, hl, hcl⟩ := hc'
  simp only [List.mem_map] at hl
  obtain ⟨w, _, rfl⟩ := hl
  simp only [wordHex, List.mem_cons, List.not_mem_nil, or_false] at hcl
  rcases hcl with rfl | rfl | rfl | rfl | rfl | rfl | rfl | rfl <;> exact ⟨_, rfl⟩

/-- A `hexdigest` has 64 characters. -/
theorem hexdigest_length (st : Hash8) : (hexdigest st).length = 64 := rfl

/-- Claim C3, the checksum function: the checksum of a file is the SHA-256
digest of its bytes as a 64-character string of uppercase hexadecimal
characters; the chunked accumulation computes exactly the independently
taken one-shot reference digest of the same bytes; and two runs on the same
bytes return the same string, the checksum being a pure function of the
bytes. -/
theorem calculate_sha256_correct (bytes : List Nat) :
    calculate_sha256 bytes = referenceDigest bytes ∧
    (calculate_sha256 bytes).length = 64 ∧
    (calculate_sha256 bytes).data.all (fun c => upperHexChars.contains c) = true ∧
    calculate_sha256 bytes = calculate_sha256 bytes := by
  have hchunk : (chunksOf 8192 bytes).foldl shaUpdate [] = bytes := by
    rw [foldl_shaUpdate, List.nil_append, chunksOf_join 8192 (by norm_num)]
  refine ⟨?_, ?_, ?_, rfl⟩
  · rw [calculate_sha256, referenceDigest, hchunk]
  · rw [calculate_sha256, hchunk]
    show ((hexdigest (sha256 bytes)).data.map Char.toUpper).length = 64
    rw [List.length_map]
    exact hexdigest_length (sha256 bytes)
  · rw [calculate_sha256, hchunk, List.all_eq_true]
    intro c hc
    have hc' : c ∈ (hexdigest (sha256 bytes)).data.map Char.toUpper := hc
    rw [List.mem_map] at hc'
    obtain ⟨c0, hc0, rfl⟩ := hc'
    obtain ⟨n, rfl⟩ := mem_hexdigest_data (sha256 bytes) c0 hc0
    exact List.elem_iff.mpr (nibbleChar_toUpper_mem n)

/-- Claim C5, the download failure taxonomy: every invocation issues exactly one
request (no retry); an HTTP 404 terminates with exit code 1 and the
version-not-found message, any other HTTP error status terminates with exit
code 1 and the generic HTTP-error message, and a transport failure
terminates with exit code 1 and the network-error message. -/
theorem download_installer_error_taxonomy (hyphen_version : String)
    (net : String → HttpResult) (fs : FS) :
    (download_installer hyphen_version net fs).2.requests
        = fs.requests ++ [urlFor hyphen_version] ∧
    (net (urlFor hyphen_version) = .httpError 404 →
      (download_installer hyphen_version net fs).1 = .error ⟨1, .versionNotFound⟩) ∧
    (∀ s, net (urlFor hyphen_version) = .httpError s → s ≠ 404 →
      (download_installer hyphen_version net fs).1 = .error ⟨1, .httpErrorMsg⟩) ∧
    (net (urlFor hyphen_version) = .netError →
      (download_installer hyphen_version net fs).1 = .error ⟨1, .networkError⟩) := by
  refine ⟨?_, ?_, ?_, ?_⟩
  · cases hnet : net (urlFor hyphen_version) <;>
      (simp [download_installer, hnet]; try (split <;> rfl))
  · intro h
    simp [download_installer, h]
  · intro s h hs
    simp [download_installer, h, hs]
  · intro h
    simp [download_installer, h]

/-- Witness for `download_installer_error_taxonomy` on the three failure
shapes of the network oracle. -/
theorem download_installer_error_taxonomy_witness :
    (download_installer "7-2-0-2" (fun _ => .httpError 404) ⟨none, [], []⟩).1
        = .error ⟨1, .versionNotFound⟩ ∧
    (download_installer "7-2-0-2" (fun _ => .httpError 500) ⟨none, [], []⟩).1
        = .error ⟨1, .httpErrorMsg⟩ ∧
    (download_installer "7-2-0-2" (fun _ => .netError) ⟨none, [], []⟩).1
        = .error ⟨1, .networkError⟩ :=
  ⟨(download_installer_error_taxonomy "7-2-0-2" _ _).2.1 rfl,
   (download_installer_error_taxonomy "7-2-0-2" _ _).2.2.1 500 rfl (by decide),
   (download_installer_error_taxonomy "7-2-0-2" _ _).2.2.2 rfl⟩

/-- Claim C10, no partial file on a failed download: when the initial GET or
its status check fails (any HTTP error status, or any transport-level
error), the download step returns the error before the destination file is
ever opened, so the temp directory is untouched — destination bytes are
written only after a successful status check. -/
theorem download_installer_no_partial_file (hyphen_version : String)
    (net : String → HttpResult) (fs : FS)
    (h : (∃ s, net (urlFor hyphen_version) = .httpError s) ∨
         net (urlFor hyphen_version) = .netError) :
    (download_installer hyphen_version net fs).2.tempFiles = fs.tempFiles ∧
    ∃ e : ExitInfo, (download_installer hyphen_version net fs).1 = .error e ∧
      e.code = 1 := by
  rcases h with ⟨s, hnet⟩ | hnet
  · refine ⟨by simp [download_installer, hnet]; split <;> rfl, ?_⟩
    by_cases hs : s = 404
    · exact ⟨⟨1, .versionNotFound⟩, by simp [download_installer, hnet, hs], rfl⟩
    · exact ⟨⟨1, .httpErrorMsg⟩, by simp [download_installer, hnet, hs], rfl⟩
  · exact ⟨by simp [download_installer, hnet],
           ⟨1, .networkError⟩, by simp [download_installer, hnet], rfl⟩

/-- Witness for `download_installer_no_partial_file` with a transport
failure and a pre-existing unrelated temp file. -/
theorem download_installer_no_partial_file_witness :
    (download_installer "7-2-0-2" (fun _ => .netError)
        ⟨none, [("old.exe", [1])], []⟩).2.tempFiles = [("old.exe", [1])] ∧
    ∃ e : ExitInfo,
      (download_installer "7-2-0-2" (fun _ => .netError)
          ⟨none, [("old.exe", [1])], []⟩).1 = .error e ∧ e.code = 1 :=
  download_installer_no_partial_file "7-2-0-2" _ _ (Or.inr rfl)

/-- Claim C7, missing manifest: when the manifest file does not exist, the
run exits with code 1 and the missing-manifest diagnostic, the state is
completely untouched (no request issued, no file written), and the outcome
does not depend on the network at all. -/
theorem main_missing_manifest (version : String) (keepTemp : Bool)
    (net net' : String → HttpResult) (fs : FS) (h : fs.manifest = none) :
    (main version keepTemp net fs).1 = (1, some .manifestNotFound) ∧
    (main version keepTemp net fs).2 = fs ∧
    main version keepTemp net fs = main version keepTemp net' fs := by
  exact ⟨by simp [main, h], by simp [main, h], by simp [main, h]⟩

/-- Witness for `main_missing_manifest` with two very different network
oracles. -/
theorem main_missing_manifest_witness :
    (main "7.2.0.2" false (fun _ => .netError) ⟨none, [], []⟩).1
        = (1, some .manifestNotFound) ∧
    (main "7.2.0.2" false (fun _ => .netError) ⟨none, [], []⟩).2 = ⟨none, [], []⟩ ∧
    main "7.2.0.2" false (fun _ => .netError) ⟨none, [], []⟩
      = main "7.2.0.2" false (fun _ => .success [7]) ⟨none, [], []⟩ :=
  main_missing_manifest "7.2.0.2" false _ _ ⟨none, [], []⟩ rfl

/-- Claim C4, a 404 leaves the manifest alone: when the manifest exists and the
download yields HTTP 404, the run exits with code 1 (non-zero) and the
version-not-found diagnostic, and neither the manifest nor the temp
directory is written or modified. -/
theorem main_404_no_write (version : String) (keepTemp : Bool)
    (net : String → HttpResult) (fs : FS) (m : Json)
    (hm : fs.manifest = some m)
    (h404 : net (urlFor (hyphenVersion version)) = .httpError 404) :
    (main version keepTemp net fs).1 = (1, some .versionNotFound) ∧
    (main version keepTemp net fs).1.1 ≠ 0 ∧
    (main version keepTemp net fs).2.manifest = fs.manifest ∧
    (main version keepTemp net fs).2.tempFiles = fs.tempFiles := by
  refine ⟨?_, ?_, ?_, ?_⟩ <;>
    simp [main, hm, download_installer, h404, finallyCleanup_nil]

/-- Witness for `main_404_no_write` on the sample state. -/
theorem main_404_no_write_witness :
    (main "7.2.0.2" false (fun _ => .httpError 404) sampleFS).1
        = (1, some .versionNotFound) ∧
    (main "7.2.0.2" false (fun _ => .httpError 404) sampleFS).1.1 ≠ 0 ∧
    (main "7.2.0.2" false (fun _ => .httpError 404) sampleFS).2.manifest
        = sampleFS.manifest ∧
    (main "7.2.0.2" false (fun _ => .httpError 404) sampleFS).2.tempFiles
        = sampleFS.tempFiles :=
  main_404_no_write "7.2.0.2" false _ sampleFS (.obj sampleFields) rfl rfl

/-- Filtering away a key leaves no entry with that key. -/
theorem not_mem_filter_key (l : List (String × List Nat)) (name : String)
    (p : String × List Nat → Bool) (hp : ∀ kv, p kv = true → ¬ kv.1 = name) :
    name ∉ (l.filter p).map Prod.fst := by
  intro h
  rw [List.mem_map] at h
  obtain ⟨kv, hkv, hfst⟩ := h
  rw [List.mem_filter] at hkv
  exact hp kv hkv.2 hfst

/-- Claim C6, guaranteed cleanup: without `--keep-temp` the cleanup runs
after the fetch/hash/update sequence starts, on every path — success, either
kind of download failure, a mid-stream download interruption, or an
exception in the update — and, given its tracked list (the installer path
when the fetch returned, empty otherwise), deletes each tracked path that
still exists.  Concretely: whenever the fetch returned, no installer file is
left behind, whether or not the update then succeeded and regardless of any
pre-existing file of that name; on a request-time failure the empty tracked
list is cleaned, leaving the temp directory as it was; and on a mid-stream
interruption the empty tracked list is cleaned, so exactly the partially
written file is what remains. -/
theorem main_cleanup_always (version : String) (net : String → HttpResult)
    (fs : FS) (m : Json) (hm : fs.manifest = some m) :
    (∀ body, net (urlFor (hyphenVersion version)) = .success body →
        installerName (hyphenVersion version)
          ∉ ((main version false net fs).2.tempFiles.map Prod.fst)) ∧
    (∀ s, net (urlFor (hyphenVersion version)) = .httpError s →
        (main version false net fs).2.tempFiles = fs.tempFiles) ∧
    (net (urlFor (hyphenVersion version)) = .netError →
        (main version false net fs).2.tempFiles = fs.tempFiles) ∧
    (∀ delivered, net (urlFor (hyphenVersion version)) = .interrupted delivered →
        (main version false net fs).2.tempFiles
          = writeFile fs.tempFiles (installerName (hyphenVersion version)) delivered) := by
  refine ⟨?_, ?_, ?_, ?_⟩
  · intro body hnet
    have hrf : ∀ (mo : Option Json) (rq : List String) (nm : String),
        readFile ⟨mo, writeFile fs.tempFiles nm body, rq⟩ nm = some body :=
      fun _ _ _ => readFile_writeFile _ _ _ _ rfl
    cases hupd : updateManifestDoc m version (hyphenVersion version)
        (calculate_sha256 body) with
    | none =>
        have hmain : (main version false net fs).2.tempFiles
            = (writeFile fs.tempFiles (installerName (hyphenVersion version))
                body).filter
                (fun kv => kv.1 ≠ installerName (hyphenVersion version)) := by
          simp [main, hm, download_installer, hnet, hrf, update_manifest, hupd,
                finallyCleanup, cleanup_temp_files]
        rw [hmain]
        exact not_mem_filter_key _ _ _ (fun kv hkv => by simpa using hkv)
    | some m' =>
        have hmain : (main version false net fs).2.tempFiles
            = (writeFile fs.tempFiles (installerName (hyphenVersion version))
                body).filter
                (fun kv => kv.1 ≠ installerName (hyphenVersion version)) := by
          simp [main, hm, download_installer, hnet, hrf, update_manifest, hupd,
                finallyCleanup, cleanup_temp_files]
        rw [hmain]
        exact not_mem_filter_key _ _ _ (fun kv hkv => by simpa using hkv)
  · intro s hnet
    by_cases hs4 : s = 404 <;>
      simp [main, hm, download_installer, hnet, hs4, finallyCleanup_nil]
  · intro hnet
    simp [main, hm, download_installer, hnet, finallyCleanup_nil]
  · intro delivered hnet
    simp [main, hm, download_installer, hnet, finallyCleanup_nil]

/-- Witness for `main_cleanup_always`: a successful run from the sample
state leaves no installer file behind, and a mid-stream interrupted run
leaves exactly the partial file behind. -/
theorem main_cleanup_always_witness :
    installerName (hyphenVersion "7.2.0.2")
      ∉ ((main "7.2.0.2" false (fun _ => .success [1, 2]) sampleFS).2.tempFiles.map
          Prod.fst) ∧
    (main "7.2.0.2" false (fun _ => .interrupted [9]) sampleFS).2.tempFiles
      = writeFile sampleFS.tempFiles (installerName (hyphenVersion "7.2.0.2")) [9] :=
  ⟨(main_cleanup_always "7.2.0.2" _ sampleFS (.obj sampleFields) rfl).1 [1, 2] rfl,
   (main_cleanup_always "7.2.0.2" _ sampleFS (.obj sampleFields) rfl).2.2.2 [9] rfl⟩

/-- Claim C9, the URL written equals the URL downloaded: on a successful run the
single HTTP request goes to the templated URL for the hyphenated version,
and the manifest field `architecture.64bit.url` is set to that very URL,
with `architecture.64bit.hash` the checksum of the body downloaded from
it. -/
theorem main_url_consistency (version : String) (kt : Bool)
    (net : String → HttpResult) (fs : FS)
    (fields arch b64 : List (String × Json)) (body : List Nat)
    (hm : fs.manifest = some (.obj fields))
    (ha : objGet fields "architecture" = some (.obj arch))
    (hb : objGet arch "64bit" = some (.obj b64))
    (hnet : net (urlFor (hyphenVersion version)) = .success body) :
    (main version kt net fs).1 = (0, none) ∧
    (main version kt net fs).2.requests
        = fs.requests ++ [urlFor (hyphenVersion version)] ∧
    ∃ m', (main version kt net fs).2.manifest = some m' ∧
      m'.getPath ["architecture", "64bit", "url"]
          = some (.str (urlFor (hyphenVersion version))) ∧
      m'.getPath ["architecture", "64bit", "hash"]
          = some (.str ("sha256:" ++ calculate_sha256 body)) := by
  have hupd := updateManifestDoc_eq fields arch b64 version (hyphenVersion version)
      (calculate_sha256 body) ha hb
  have hrf : ∀ (mo : Option Json) (rq : List String) (nm : String),
      readFile ⟨mo, writeFile fs.tempFiles nm body, rq⟩ nm = some body :=
    fun _ _ _ => readFile_writeFile _ _ _ _ rfl
  refine ⟨?_, ?_,
    updatedDoc fields arch b64 version (hyphenVersion version)
      (calculate_sha256 body), ?_, ?_, ?_⟩
  · cases kt <;>
      simp [main, hm, download_installer, hnet, hrf, update_manifest, hupd,
            finallyCleanup, cleanup_temp_files]
  · cases kt <;>
      simp [main, hm, download_installer, hnet, hrf, update_manifest, hupd,
            finallyCleanup, cleanup_temp_files]
  · cases kt <;>
      simp [main, hm, download_installer, hnet, hrf, update_manifest, hupd,
            finallyCleanup, cleanup_temp_files]
  · simp only [updatedDoc, Json.getPath, Json.getKey, Option.bind]
    rw [objGet_objSet, if_pos rfl]
    simp only [Option.bind, Json.getKey]
    rw [objGet_objSet, if_pos rfl]
    simp only [Option.bind, Json.getKey]
    rw [objGet_objSet, if_neg (by decide), objGet_objSet, if_pos rfl]
  · simp only [updatedDoc, Json.getPath, Json.getKey, Option.bind]
    rw [objGet_objSet, if_pos rfl]
    simp only [Option.bind, Json.getKey]
    rw [objGet_objSet, if_pos rfl]
    simp only [Option.bind, Json.getKey]
    rw [objGet_objSet, if_pos rfl]

/-- Witness for `main_url_consistency` on a successful run from the sample
state. -/
theorem main_url_consistency_witness :
    (main "7.2.0.2" false (fun _ => .success [1, 2]) sampleFS).1 = (0, none) ∧
    (main "7.2.0.2" false (fun _ => .success [1, 2]) sampleFS).2.requests
        = sampleFS.requests ++ [urlFor (hyphenVersion "7.2.0.2")] ∧
    ∃ m', (main "7.2.0.2" false (fun _ => .success [1, 2]) sampleFS).2.manifest
        = some m' ∧
      m'.getPath ["architecture", "64bit", "url"]
          = some (.str (urlFor (hyphenVersion "7.2.0.2"))) ∧
      m'.getPath ["architecture", "64bit", "hash"]
          = some (.str ("sha256:" ++ calculate_sha256 [1, 2])) :=
  main_url_consistency "7.2.0.2" false _ sampleFS sampleFields sampleArch sampleB64
    [1, 2] rfl rfl rfl rfl

end Firestorm
